import Mathlib

/-!
Verification of the record-management layer of a bookmark / item store
(`bkmk` and `itmn`): the free-ID allocator, the bookmark manager
(duplicate-URL detection with trailing-slash normalization, lowest-free-ID
allocation, dirty-flag tracking) and the hierarchical item manager
(construction-time ID validation, reference-ID back-fill, recursive
find-by-reference-ID, child insertion, batch modification, conditional
persistence).

Rust `HashSet<Id>` values are modelled as `List Nat` used only through
membership, which is all the source ever queries (`contains`, and the
allocator's "smallest value not in the set"). Rust `String` URLs are
modelled as `List Char` (Unicode scalar values, as `str::chars` yields),
with the UTF-8 byte length computed explicitly where the source indexes
by `str::len`. Panics and I/O are made explicit: a function that can
panic returns `Option`, and `save_to_file` is modelled as the optional
written payload.
-/

/-- Modelled from the spec: the free-ID allocator of `core::misc`
(`find_free_value` / `find_lowest_free_value`, not under `src/`):
given the set of already-used IDs it returns the smallest unused
non-negative integer. Implemented with explicit fuel; `used.length + 1`
candidates always suffice. -/
def findFreeAux (used : List Nat) : Nat → Nat → Nat
  | 0, n => n
  | fuel + 1, n => if n ∈ used then findFreeAux used fuel (n + 1) else n

/-- Modelled from the spec: `core::misc::find_free_value` (used by the
item manager). -/
def find_free_value (used : List Nat) : Nat :=
  findFreeAux used (used.length + 1) 0

/-- Modelled from the spec: `core::misc::find_lowest_free_value` (used by
the bookmark manager); same contract as `find_free_value`. -/
def find_lowest_free_value (used : List Nat) : Nat :=
  findFreeAux used (used.length + 1) 0

/-- `bkmk::bookmark::Bookmark` (declaration outside `src/`; fields as
used by `bkmk/manager.rs` and described in the spec's data model). -/
structure Bookmark where
  id : Nat
  name : String
  url : List Char
  tags : List String
  archived : Bool
deriving DecidableEq

/-- `bkmk::manager::BookmarkManager`: collection, dirty flag, used-ID set. -/
structure BookmarkManager where
  data : List Bookmark
  modified : Bool
  used_ids : List Nat
deriving DecidableEq

/-- The `check_repeated` closure inside `BookmarkManager::already_has_url`:
first bookmark whose `url` equals the argument verbatim, returning its id. -/
def check_repeated : List Bookmark → List Char → Option Nat
  | [], _ => none
  | b :: rest, url => if b.url = url then some b.id else check_repeated rest url

/-- UTF-8 byte length of a char sequence: Rust's `str::len`. -/
def byteLen (url : List Char) : Nat :=
  (url.map Char.utf8Size).sum

/-- `BookmarkManager::already_has_url`. The source runs
`url.chars().nth(url.len() - 1).unwrap()` to read the "last" character:
`len` is the byte length while `nth` counts chars, so the `unwrap` panics
(modelled as `none`) when the index misses — on the empty string and on
any string containing a multi-byte character. When the read succeeds the
string is all-ASCII, so byte slicing `[0..len-1]` is `dropLast`. -/
def BookmarkManager.already_has_url (mgr : BookmarkManager) (url : List Char) :
    Option (Option Nat) :=
  match check_repeated mgr.data url with
  | some id => some (some id)
  | none =>
    match url.get? (byteLen url - 1) with
    | none => none
    | some c =>
      if c = '/' then some (check_repeated mgr.data url.dropLast)
      else some (check_repeated mgr.data (url ++ ['/']))

/-- The trailing-slash-toggled form of a URL (the spec's normalization):
drop a trailing slash, or append one if absent. Statement-level notion
used to compare `already_has_url` against the spec's description. -/
def slashToggle (url : List Char) : List Char :=
  if url.getLast? = some '/' then url.dropLast else url ++ ['/']

/-- `BookmarkManager::add_bookmark`. Outer `none` is the panic inherited
from `already_has_url`; `Except.error id` is the duplicate-URL rejection
carrying the conflicting bookmark's id; `Except.ok` is the updated
manager (append record, record the id as used, mark dirty). -/
def BookmarkManager.add_bookmark (mgr : BookmarkManager) (name : String)
    (url : List Char) (tags : List String) : Option (Except Nat BookmarkManager) :=
  match mgr.already_has_url url with
  | none => none
  | some (some id) => some (Except.error id)
  | some none =>
    let free_id := find_lowest_free_value mgr.used_ids
    some (Except.ok
      { mgr with
        data := (mgr.data ++ [{ id := free_id, name := name, url := url,
                                tags := tags, archived := false }])
        used_ids := (free_id :: mgr.used_ids)
        modified := true })

/-- Modelled from the spec: `save_to_file` (in `core`, not under `src/`)
writes the serialized collection; modelled as the written payload.
`BookmarkManager::save_if_modified` writes only when the dirty flag is
set; it takes the manager immutably and never clears the flag. -/
def BookmarkManager.save_if_modified (mgr : BookmarkManager) : Option (List Bookmark) :=
  if mgr.modified then some mgr.data else none

/-- Number of writes performed by one `save_if_modified` call. -/
def writeCount {α : Type} (w : Option α) : Nat :=
  if w.isSome then 1 else 0

/-- Total writes performed by two consecutive `save_if_modified` calls
with no intervening mutation (the call does not change the manager, so
both calls observe the same state). -/
def BookmarkManager.saveTwiceWrites (mgr : BookmarkManager) : Nat :=
  writeCount mgr.save_if_modified + writeCount mgr.save_if_modified

/-- `itmn::item::State` (declaration outside `src/`; variants as used by
`itmn/manager.rs` and the spec). -/
inductive State where
  | Todo
  | Note
  | Done
deriving DecidableEq

/-- `itmn::item::Item` (declaration outside `src/`; fields as used by
`itmn/manager.rs` and described in the spec's data model): internal ID,
optional reference ID, name, optional context, state, ordered children. -/
inductive Item where
  | mk : Nat → Option Nat → String → Option String → State → List Item → Item

def Item.internal_id : Item → Nat
  | .mk i _ _ _ _ _ => i

def Item.ref_id : Item → Option Nat
  | .mk _ r _ _ _ _ => r

def Item.name : Item → String
  | .mk _ _ n _ _ _ => n

def Item.context : Item → Option String
  | .mk _ _ _ c _ _ => c

def Item.state : Item → State
  | .mk _ _ _ _ s _ => s

def Item.children : Item → List Item
  | .mk _ _ _ _ _ ch => ch

def Item.withRefId : Item → Option Nat → Item
  | .mk i _ n c s ch, r => .mk i r n c s ch

def Item.withName : Item → String → Item
  | .mk i r _ c s ch, n => .mk i r n c s ch

def Item.withContext : Item → Option String → Item
  | .mk i r n _ s ch, c => .mk i r n c s ch

def Item.withState : Item → State → Item
  | .mk i r n c _ ch, s => .mk i r n c s ch

def Item.withChildren : Item → List Item → Item
  | .mk i r n c s _, ch => .mk i r n c s ch

/-- Modelled from the spec: `Item::normalize` (in `itmn::item`, not under
`src/`) enforces that reference-ID presence matches the state before an
item enters the store: a `Done` item loses its reference ID; `Todo` and
`Note` items are unchanged (every caller supplies a present reference ID). -/
def Item.normalize (i : Item) : Item :=
  match i.state with
  | .Done => i.withRefId none
  | .Todo => i
  | .Note => i

/-- `itmn::manager::Error`. -/
inductive ItmnError where
  | RepeatedRefID : Nat → ItmnError
  | RepeatedInternalID : Nat → ItmnError
deriving DecidableEq

/-- `itmn::manager::ItemManager`: item tree, dirty flag, and the two
used-ID sets (internal and reference namespaces). -/
structure ItemManager where
  data : List Item
  modified : Bool
  internal_ids : List Nat
  ref_ids : List Nat

/-- The validation loop of `ItemManager::new` (lines 85-101): walks the
top-level records in order; per record it first checks the present
reference ID against the reference set, then the internal ID against the
internal set, failing on the first repeat; otherwise it accumulates both
sets. It does not descend into children. -/
def scanIds : List Item → List Nat → List Nat → Except ItmnError (List Nat × List Nat)
  | [], refs, ins => Except.ok (refs, ins)
  | i :: rest, refs, ins =>
    match i.ref_id with
    | some id =>
      if id ∈ refs then Except.error (ItmnError.RepeatedRefID id)
      else if i.internal_id ∈ ins then Except.error (ItmnError.RepeatedInternalID i.internal_id)
      else scanIds rest (id :: refs) (i.internal_id :: ins)
    | none =>
      if i.internal_id ∈ ins then Except.error (ItmnError.RepeatedInternalID i.internal_id)
      else scanIds rest refs (i.internal_id :: ins)

/-- The back-fill step of `ItemManager::new` (lines 104-113), per
top-level record: a `Todo`/`Note` record with no reference ID receives
`find_free_value` of the scanned reference set; the set itself is never
updated, so every back-filled record receives the same value. -/
def backfillItem (refs : List Nat) (i : Item) : Item :=
  match i.state with
  | .Done => i
  | .Todo => if i.ref_id = none then i.withRefId (some (find_free_value refs)) else i
  | .Note => if i.ref_id = none then i.withRefId (some (find_free_value refs)) else i

/-- `ItemManager::new`: validate (top-level scan), back-fill, and build
the manager with the dirty flag unset and the scanned ID sets (the
back-filled reference IDs are not in the stored reference set). -/
def ItemManager.new (data : List Item) : Except ItmnError ItemManager :=
  match scanIds data [] [] with
  | Except.error e => Except.error e
  | Except.ok (refs, ins) =>
    Except.ok { data := data.map (backfillItem refs), modified := false,
                internal_ids := ins, ref_ids := refs }

/-- `ItemManager::find` (via the inner recursion of lines 37-50):
depth-first pre-order search by reference ID — the current node first,
then its children, then the following siblings. -/
def findRef (r : Nat) : List Item → Option Item
  | [] => none
  | Item.mk iid rid nm ctx st ch :: rest =>
    if rid = some r then some (Item.mk iid rid nm ctx st ch)
    else
      match findRef r ch with
      | some x => some x
      | none => findRef r rest

/-- `ItemManager::find_mut` followed by an in-place update of the found
item: rewrites the first pre-order match by `f`, returning `none` when no
item carries the reference ID (in which case nothing is rewritten). -/
def modifyRef (r : Nat) (f : Item → Item) : List Item → Option (List Item)
  | [] => none
  | Item.mk iid rid nm ctx st ch :: rest =>
    if rid = some r then some (f (Item.mk iid rid nm ctx st ch) :: rest)
    else
      match modifyRef r f ch with
      | some ch2 => some (Item.mk iid rid nm ctx st ch2 :: rest)
      | none =>
        match modifyRef r f rest with
        | some rest2 => some (Item.mk iid rid nm ctx st ch :: rest2)
        | none => none

/-- All internal IDs of the full tree, in pre-order (statement-level
notion: the source's validation never computes this). -/
def treeInternalIds : List Item → List Nat
  | [] => []
  | Item.mk iid _ _ _ _ ch :: rest => iid :: (treeInternalIds ch ++ treeInternalIds rest)

/-- All present reference IDs of the full tree, in pre-order
(statement-level notion). -/
def treeRefIds : List Item → List Nat
  | [] => []
  | Item.mk _ rid _ _ _ ch :: rest =>
    (rid.toList) ++ (treeRefIds ch ++ treeRefIds rest)

/-- Modelled from the spec: `core::data::Manager::interact_mut` (not
under `src/`): look up by identity through the store's `find_mut`
(overridden by the item manager to the recursive search), apply the
mutating action on a match and run the dirty-mark hook; on a miss do
nothing. -/
def ItemManager.interact_mut (mgr : ItemManager) (id : Nat) (f : Item → Item) : ItemManager :=
  match modifyRef id f mgr.data with
  | some d2 => { mgr with data := d2, modified := true }
  | none => mgr

/-- `ItemManager::add_child_to_ref_id`: allocate a fresh reference ID and
a fresh internal ID and record both as used *before* the search; push a
normalized child under the first item carrying `ref_id`, or fail with the
not-found error; set the dirty flag unconditionally on both paths.
Returns the updated manager and whether the target was found. -/
def ItemManager.add_child_to_ref_id (mgr : ItemManager) (ref_id : Nat) (name : String)
    (context : Option String) (state : State) (children : List Item) :
    ItemManager × Bool :=
  let free_ref_id := find_free_value mgr.ref_ids
  let free_internal_id := find_free_value mgr.internal_ids
  let child := (Item.mk free_internal_id (some free_ref_id) name context state children).normalize
  let base :=
    { mgr with
      ref_ids := (free_ref_id :: mgr.ref_ids)
      internal_ids := (free_internal_id :: mgr.internal_ids) }
  match modifyRef ref_id (fun i => i.withChildren (i.children ++ [child])) base.data with
  | some d2 => ({ base with data := d2, modified := true }, true)
  | none => ({ base with modified := true }, false)

/-- `itmn::cli::ItemBatchMod`: the optional changes of a batch modify. -/
structure ItemBatchMod where
  name : Option String
  context : Option String
  note : Option Bool

/-- The per-item closure of `ItemManager::mass_modify` (lines 226-249):
rename if requested; set or clear the context (empty string clears);
`note = some true` sets the state to `Note` unconditionally, while
`note = some false` turns `Note` into `Todo` and leaves `Todo`/`Done`
unchanged. -/
def applyMod (m : ItemBatchMod) (i : Item) : Item :=
  let i1 := match m.name with
    | some n => i.withName n
    | none => i
  let i2 := match m.context with
    | some c => if c = "" then i1.withContext none else i1.withContext (some c)
    | none => i1
  match m.note with
  | some true => i2.withState State.Note
  | some false =>
    match i2.state with
    | State.Todo => i2
    | State.Done => i2
    | State.Note => i2.withState State.Todo
  | none => i2

/-- `ItemManager::mass_modify`: the whole operation — preview, the
confirmation prompt (its boolean answer is the external collaborator,
passed as `confirmed`), and the per-ID `interact_mut` loop — is gated
behind `range.len() > 1`. The returned flag records whether the
confirmation prompt was reached. -/
def ItemManager.mass_modify (mgr : ItemManager) (range : List Nat) (m : ItemBatchMod)
    (confirmed : Bool) : ItemManager × Bool :=
  if 1 < range.length then
    if confirmed then
      (range.foldl (fun mg id => mg.interact_mut id (applyMod m)) mgr, true)
    else (mgr, true)
  else (mgr, false)

/-- Modelled from the spec: `save_to_file` writes the serialized
collection; modelled as the written payload. `ItemManager::save_if_modified`
writes only when the dirty flag is set and never clears it. -/
def ItemManager.save_if_modified (mgr : ItemManager) : Option (List Item) :=
  if mgr.modified then some mgr.data else none

/-- Total writes performed by two consecutive `ItemManager::save_if_modified`
calls with no intervening mutation. -/
def ItemManager.saveTwiceWrites (mgr : ItemManager) : Nat :=
  writeCount mgr.save_if_modified + writeCount mgr.save_if_modified

/-- Concrete input: a top-level item whose child repeats both the
internal ID and the reference ID of its parent. -/
def c1bad : List Item :=
  [Item.mk 0 (some 0) "parent" none State.Todo [Item.mk 0 (some 0) "child" none State.Todo []]]

/-- Concrete input: two `Todo` items, neither carrying a reference ID. -/
def c2input : List Item :=
  [Item.mk 0 none "a" none State.Todo [], Item.mk 1 none "b" none State.Todo []]

/-- Concrete store with a single item whose reference ID is 1. -/
def c3mgr : ItemManager :=
  { data := [Item.mk 0 (some 1) "a" none State.Todo []], modified := false,
    internal_ids := [0], ref_ids := [1] }

/-- Concrete store with one bookmark whose URL ends in a slash. -/
def c4mgr : BookmarkManager :=
  { data := [{ id := 3, name := "E", url := ['h', '/'], tags := [], archived := false }],
    modified := false, used_ids := [3] }

/-- Concrete store whose dirty flag is set. -/
def c6dirty : BookmarkManager := { data := [], modified := true, used_ids := [] }

/-- Concrete store holding a `Done` item that still carries reference
ID 5 and a `Todo` item with reference ID 1 (exactly the manager that
`ItemManager.new` builds from its `data`: construction neither strips
nor validates the `Done` item's reference ID). -/
def c8mgr : ItemManager :=
  { data := [Item.mk 0 (some 5) "d" none State.Done [], Item.mk 1 (some 1) "t" none State.Todo []],
    modified := false, internal_ids := [1, 0], ref_ids := [1, 5] }

/-- Concrete empty bookmark store. -/
def c9mgr : BookmarkManager := { data := [], modified := false, used_ids := [] }

/-- Concrete input: one `Todo` item with no reference ID. -/
def c10input : List Item := [Item.mk 7 none "t" none State.Todo []]

/-- The manager `ItemManager.new` builds from `c10input`: the back-fill
step assigned reference ID 0, yet the dirty flag is unset and the
assigned ID is missing from the stored reference-ID set. -/
def c10result : ItemManager :=
  { data := [Item.mk 7 (some 0) "t" none State.Todo []], modified := false,
    internal_ids := [7], ref_ids := [] }

/-! ## General lemmas about the embedded definitions -/

theorem le_length_of_forall_lt_mem {used : List Nat} {n : Nat}
    (h : ∀ k < n, k ∈ used) : n ≤ used.length := by
  have hsub : Finset.range n ⊆ used.toFinset := by
    intro k hk
    exact List.mem_toFinset.2 (h k (Finset.mem_range.1 hk))
  calc n = (Finset.range n).card := (Finset.card_range n).symm
    _ ≤ used.toFinset.card := Finset.card_le_card hsub
    _ ≤ used.length := List.toFinset_card_le used

theorem findFreeAux_spec (used : List Nat) :
    ∀ fuel n, (∀ k < n, k ∈ used) → used.length < n + fuel →
      findFreeAux used fuel n ∉ used ∧ ∀ k < findFreeAux used fuel n, k ∈ used := by
  intro fuel
  induction fuel with
  | zero =>
    intro n h hlen
    exact absurd (le_length_of_forall_lt_mem h) (by omega)
  | succ fuel ih =>
    intro n h hn
    by_cases hmem : n ∈ used
    · have h' : ∀ k < n + 1, k ∈ used := by
        intro k hk
        rcases Nat.lt_succ_iff_lt_or_eq.1 hk with hk' | rfl
        · exact h k hk'
        · exact hmem
      have := ih (n + 1) h' (by omega)
      simpa [findFreeAux, hmem] using this
    · refine ⟨by simp [findFreeAux, hmem], ?_⟩
      intro k hk
      rw [findFreeAux] at hk
      simp [hmem] at hk
      exact h k hk

/-- The allocator returns an unused ID, and every smaller ID is used:
the spec's "smallest unused non-negative integer". -/
theorem find_free_value_spec (used : List Nat) :
    find_free_value used ∉ used ∧ ∀ k < find_free_value used, k ∈ used :=
  findFreeAux_spec used (used.length + 1) 0
    (by intro k hk; exact absurd hk (Nat.not_lt_zero k)) (by omega)

theorem find_lowest_free_value_spec (used : List Nat) :
    find_lowest_free_value used ∉ used ∧ ∀ k < find_lowest_free_value used, k ∈ used :=
  findFreeAux_spec used (used.length + 1) 0
    (by intro k hk; exact absurd hk (Nat.not_lt_zero k)) (by omega)

theorem except_isOk_ok {e a : Type} (x : a) : (@Except.ok e a x).isOk = true := rfl

theorem except_isOk_error {e a : Type} (x : e) : (@Except.error e a x).isOk = false := rfl

theorem forall_mem_not_mem_cons {l s : List Nat} {a : Nat} :
    (∀ x ∈ l, x ∉ a :: s) ↔ a ∉ l ∧ ∀ x ∈ l, x ∉ s := by
  constructor
  · intro h
    refine ⟨fun hal => (h a hal) (List.mem_cons_self a s),
      fun x hx hs => (h x hx) (List.mem_cons_of_mem a hs)⟩
  · rintro ⟨ha, h⟩ x hx hmem
    rcases List.mem_cons.1 hmem with rfl | hs
    · exact ha hx
    · exact h x hx hs

/-- The validation scan succeeds exactly when the top-level internal IDs
are duplicate-free and fresh for the internal accumulator, and the
top-level present reference IDs are duplicate-free and fresh for the
reference accumulator. -/
theorem scanIds_isOk (data : List Item) : ∀ refs ins : List Nat,
    (scanIds data refs ins).isOk = true ↔
      (((data.map Item.internal_id).Nodup ∧ ∀ n ∈ data.map Item.internal_id, n ∉ ins) ∧
       ((data.filterMap Item.ref_id).Nodup ∧ ∀ r ∈ data.filterMap Item.ref_id, r ∉ refs)) := by
  induction data with
  | nil => simp [scanIds, except_isOk_ok]
  | cons i rest ih =>
    intro refs ins
    cases hr : i.ref_id with
    | none =>
      by_cases hin : i.internal_id ∈ ins
      · simp only [scanIds, hr, hin, if_true, except_isOk_error, List.map_cons,
          List.filterMap_cons, List.nodup_cons, List.forall_mem_cons, forall_mem_not_mem_cons]
        tauto
      · simp only [scanIds, hr, hin, if_false]
        rw [ih]
        simp only [List.map_cons, List.filterMap_cons, hr, List.nodup_cons,
          List.forall_mem_cons, forall_mem_not_mem_cons]
        tauto
    | some id =>
      by_cases hrf : id ∈ refs
      · simp only [scanIds, hr, hrf, if_true, except_isOk_error, List.map_cons,
          List.filterMap_cons, List.nodup_cons, List.forall_mem_cons, forall_mem_not_mem_cons]
        tauto
      · by_cases hin : i.internal_id ∈ ins
        · simp only [scanIds, hr, hrf, hin, if_false, if_true, except_isOk_error, List.map_cons,
            List.filterMap_cons, List.nodup_cons, List.forall_mem_cons, forall_mem_not_mem_cons]
          tauto
        · simp only [scanIds, hr, hrf, hin, if_false]
          rw [ih]
          simp only [List.map_cons, List.filterMap_cons, hr, List.nodup_cons,
            List.forall_mem_cons, forall_mem_not_mem_cons]
          tauto

/-- A rewrite by `modifyRef` finds a target exactly when `findRef` does:
the two traversals visit the tree in the same pre-order. -/
theorem modifyRef_eq_none_iff (r : Nat) (f : Item → Item) (l : List Item) :
    modifyRef r f l = none ↔ findRef r l = none := by
  induction l using modifyRef.induct r f with
  | case1 => simp [modifyRef, findRef]
  | case2 iid nm ctx st ch rest =>
    simp [modifyRef, findRef]
  | case3 iid rid nm ctx st ch rest hne rest2 hch ihch =>
    have hfch : findRef r ch ≠ none := fun hn => by
      rw [ihch.2 hn] at hch
      cases hch
    obtain ⟨x, hx⟩ := Option.ne_none_iff_exists'.1 hfch
    simp [modifyRef, findRef, hne, hch, hx]
  | case4 iid rid nm ctx st ch rest hne hch rest2 hrest ihch ihrest =>
    have hfrest : findRef r rest ≠ none := fun hn => by
      rw [ihrest.2 hn] at hrest
      cases hrest
    obtain ⟨x, hx⟩ := Option.ne_none_iff_exists'.1 hfrest
    simp [modifyRef, findRef, hne, hch, hrest, ihch.1 hch, hx]
  | case5 iid rid nm ctx st ch rest hne hch hrest ihch ihrest =>
    simp [modifyRef, findRef, hne, hch, hrest, ihch.1 hch, ihrest.1 hrest]

theorem check_repeated_eq_none_iff (data : List Bookmark) (url : List Char) :
    check_repeated data url = none ↔ ∀ b ∈ data, b.url ≠ url := by
  induction data with
  | nil => simp [check_repeated]
  | cons b rest ih =>
    by_cases h : b.url = url
    · simp [check_repeated, h]
    · simp [check_repeated, h, ih]

theorem check_repeated_eq_some (data : List Bookmark) (url : List Char) (id : Nat)
    (h : check_repeated data url = some id) : ∃ b ∈ data, b.id = id ∧ b.url = url := by
  induction data with
  | nil => simp [check_repeated] at h
  | cons b rest ih =>
    by_cases hb : b.url = url
    · simp [check_repeated, hb] at h
      exact ⟨b, List.mem_cons_self b rest, h, hb⟩
    · simp [check_repeated, hb] at h
      obtain ⟨c, hc, hcid, hcurl⟩ := ih h
      exact ⟨c, List.mem_cons_of_mem b hc, hcid, hcurl⟩

theorem length_le_byteLen (url : List Char) : url.length ≤ byteLen url := by
  induction url with
  | nil => simp [byteLen]
  | cons c cs ih =>
    have := Char.utf8Size_pos c
    simp only [byteLen, List.map_cons, List.sum_cons, List.length_cons] at *
    omega

theorem byteLen_eq_length {url : List Char} (h : ∀ c ∈ url, c.utf8Size = 1) :
    byteLen url = url.length := by
  induction url with
  | nil => rfl
  | cons c cs ih =>
    have hc := h c (List.mem_cons_self c cs)
    have hcs := ih (fun x hx => h x (List.mem_cons_of_mem c hx))
    simp only [byteLen, List.map_cons, List.sum_cons, List.length_cons] at *
    omega

theorem all_ascii_of_byteLen_eq {url : List Char} (h : byteLen url = url.length) :
    ∀ c ∈ url, c.utf8Size = 1 := by
  induction url with
  | nil => simp
  | cons c cs ih =>
    have h1 := Char.utf8Size_pos c
    have h2 := length_le_byteLen cs
    simp only [byteLen, List.map_cons, List.sum_cons, List.length_cons] at h h2
    have hc : c.utf8Size = 1 := by omega
    have hcs : byteLen cs = cs.length := by simp only [byteLen]; omega
    intro x hx
    rcases List.mem_cons.1 hx with rfl | hxs
    · exact hc
    · exact ih hcs x hxs

/-- The index probe `url.chars().nth(url.len() - 1)` succeeds exactly
for a non-empty URL made only of single-byte characters. -/
theorem get_byteLen_isSome_iff (url : List Char) :
    (url.get? (byteLen url - 1)).isSome = true ↔
      (url ≠ [] ∧ ∀ c ∈ url, c.utf8Size = 1) := by
  rw [List.get?_eq_getElem?]
  have hiff : url[byteLen url - 1]?.isSome = true ↔ byteLen url - 1 < url.length := by
    rw [← Option.ne_none_iff_isSome, Ne, List.getElem?_eq_none_iff, Nat.not_le]
  rw [hiff]
  constructor
  · intro hlt
    have hle := length_le_byteLen url
    have hne : url ≠ [] := by
      intro hnil
      subst hnil
      simp [byteLen] at hlt
    have hlen1 : 1 ≤ url.length := by
      cases url with
      | nil => exact absurd rfl hne
      | cons a l => simp
    have heq : byteLen url = url.length := by omega
    exact ⟨hne, all_ascii_of_byteLen_eq heq⟩
  · rintro ⟨hne, hascii⟩
    rw [byteLen_eq_length hascii]
    have hlen1 : 1 ≤ url.length := by
      cases url with
      | nil => exact absurd rfl hne
      | cons a l => simp
    omega

/-- On a non-empty all-ASCII URL, `already_has_url` never panics and
checks the URL verbatim first, then its trailing-slash-toggled form. -/
theorem already_has_url_ascii (mgr : BookmarkManager) (url : List Char)
    (hne : url ≠ []) (hascii : ∀ c ∈ url, c.utf8Size = 1) :
    mgr.already_has_url url =
      some (match check_repeated mgr.data url with
        | some id => some id
        | none => check_repeated mgr.data (slashToggle url)) := by
  have hget : url[byteLen url - 1]? = url.getLast? := by
    rw [byteLen_eq_length hascii, List.getLast?_eq_getElem?]
  cases hv : check_repeated mgr.data url with
  | some id => simp [BookmarkManager.already_has_url, hv]
  | none =>
    cases hlast : url.getLast? with
    | none => exact absurd (List.getLast?_eq_none_iff.1 hlast) hne
    | some c =>
      by_cases hc : c = '/'
      · subst hc
        simp [BookmarkManager.already_has_url, hv, hget, hlast, slashToggle]
      · simp [BookmarkManager.already_has_url, hv, hget, hlast, slashToggle, hc]

theorem add_bookmark_isSome_eq (mgr : BookmarkManager) (nm : String) (url : List Char)
    (tags : List String) :
    (mgr.add_bookmark nm url tags).isSome = (mgr.already_has_url url).isSome := by
  unfold BookmarkManager.add_bookmark
  cases h : mgr.already_has_url url with
  | none => simp
  | some o => cases o <;> simp

/-! ## Claims -/

/-- C1 (amended): `ItemManager.new` succeeds exactly when the *top-level*
internal IDs are pairwise distinct and the *top-level* present reference
IDs are pairwise distinct; descendants are never examined, so the
claimed tree-wide (recursive) uniqueness check does not hold. -/
theorem c1_new_validates_only_top_level (data : List Item) :
    (ItemManager.new data).isOk = true ↔
      (data.map Item.internal_id).Nodup ∧ (data.filterMap Item.ref_id).Nodup := by
  have h := scanIds_isOk data [] []
  simp only [List.not_mem_nil, not_false_eq_true, implies_true, and_true] at h
  rw [← h]
  unfold ItemManager.new
  cases hs : scanIds data [] [] with
  | error e => simp [except_isOk_error]
  | ok p =>
    obtain ⟨refs, ins⟩ := p
    simp [except_isOk_ok]

/-- C1 counterexample: a child item repeats both the internal ID and the
reference ID of its parent — the full tree has duplicates in both
namespaces — yet construction succeeds, contradicting the claim that
construction fails whenever two items anywhere in the tree share an ID. -/
theorem c1_nested_duplicate_ids_accepted :
    (ItemManager.new c1bad).isOk = true ∧
    ¬ (treeInternalIds c1bad).Nodup ∧ ¬ (treeRefIds c1bad).Nodup := by
  refine ⟨rfl, ?_, ?_⟩ <;>
    simp [c1bad, treeInternalIds, treeRefIds, List.nodup_cons]

/-- C2 (code bug, evaluated at the failing input): two `Todo` items that
both arrive without a reference ID are each back-filled with the *same*
fresh reference ID 0 (the allocator is consulted against a reference set
that is never updated during back-fill), and the manager's stored
reference-ID set is left empty, out of sync with the data. -/
theorem c2_backfill_duplicates_ref_ids :
    (ItemManager.new c2input).map (fun m => m.data.map Item.ref_id) =
      Except.ok [some 0, some 0] ∧
    (ItemManager.new c2input).map ItemManager.ref_ids = Except.ok [] := by
  constructor <;> rfl

/-- C3 (amended): when no item in the tree carries the reference ID,
`add_child_to_ref_id` reports not-found and appends nothing, but the
in-memory bookkeeping is *not* untouched: each used-ID set gains exactly
the freshly allocated (previously unused) identifier, and the dirty flag
is set. -/
theorem c3_not_found_keeps_items_but_grows_id_sets (mgr : ItemManager) (rid : Nat)
    (nm : String) (ctx : Option String) (st : State) (ch : List Item)
    (h : findRef rid mgr.data = none) :
    mgr.add_child_to_ref_id rid nm ctx st ch =
      ({ mgr with
          modified := true
          ref_ids := (find_free_value mgr.ref_ids :: mgr.ref_ids)
          internal_ids := (find_free_value mgr.internal_ids :: mgr.internal_ids) }, false) ∧
    find_free_value mgr.ref_ids ∉ mgr.ref_ids ∧
    find_free_value mgr.internal_ids ∉ mgr.internal_ids := by
  refine ⟨?_, (find_free_value_spec mgr.ref_ids).1, (find_free_value_spec mgr.internal_ids).1⟩
  have hm := (modifyRef_eq_none_iff rid
    (fun i => i.withChildren (i.children ++
      [(Item.mk (find_free_value mgr.internal_ids) (some (find_free_value mgr.ref_ids))
        nm ctx st ch).normalize]))
    mgr.data).2 h
  simp only [ItemManager.add_child_to_ref_id]
  rw [hm]

/-- C3 witness: the amended theorem applied to a concrete store holding
only reference ID 1, with the absent reference ID 99. -/
theorem c3_not_found_keeps_items_but_grows_id_sets_witness :
    findRef 99 c3mgr.data = none ∧
    c3mgr.add_child_to_ref_id 99 "x" none State.Todo [] =
      ({ data := [Item.mk 0 (some 1) "a" none State.Todo []], modified := true,
         internal_ids := [1, 0], ref_ids := [0, 1] }, false) ∧
    (0 : Nat) ∉ c3mgr.ref_ids ∧ (1 : Nat) ∉ c3mgr.internal_ids := by
  have h : findRef 99 c3mgr.data = none := by
    simp [c3mgr, findRef]
  have happ := c3_not_found_keeps_items_but_grows_id_sets c3mgr 99 "x" none State.Todo [] h
  exact ⟨h, happ.1, happ.2.1, happ.2.2⟩

/-- C3 counterexample: at a concrete store whose reference-ID set is
`[1]` and internal-ID set `[0]`, calling with absent reference ID 99
returns not-found, yet both used-ID sets now contain an identifier they
did not contain before the call — contradicting the claim that both
used-ID sets contain exactly the same identifiers as before. -/
theorem c3_not_found_still_changes_id_sets :
    (c3mgr.add_child_to_ref_id 99 "x" none State.Todo []).2 = false ∧
    (0 : Nat) ∈ ((c3mgr.add_child_to_ref_id 99 "x" none State.Todo []).1).ref_ids ∧
    (0 : Nat) ∉ c3mgr.ref_ids ∧
    (1 : Nat) ∈ ((c3mgr.add_child_to_ref_id 99 "x" none State.Todo []).1).internal_ids ∧
    (1 : Nat) ∉ c3mgr.internal_ids := by
  refine ⟨?_, ?_, by decide, ?_, by decide⟩ <;>
    simp [c3mgr, ItemManager.add_child_to_ref_id, modifyRef, find_free_value, findFreeAux,
      Item.normalize, Item.state, Item.ref_id]

/-- C4 (amended): for a non-empty all-ASCII url, `add_bookmark` fails
exactly when some stored bookmark's url equals the given url verbatim or
its trailing-slash-toggled form; the error carries the conflicting
bookmark's id; otherwise it appends exactly one bookmark with the lowest
free ID, the given name, url and tags, `archived = false`, records the
ID as used, and marks the store dirty. (The empty url, excluded here,
panics — see the counterexample.) -/
theorem c4_add_bookmark_ascii_contract (mgr : BookmarkManager) (nm : String)
    (url : List Char) (tags : List String)
    (hne : url ≠ []) (hascii : ∀ c ∈ url, c.utf8Size = 1) :
    ((∃ id, mgr.add_bookmark nm url tags = some (Except.error id)) ↔
        ∃ b ∈ mgr.data, b.url = url ∨ b.url = slashToggle url) ∧
    (∀ id, mgr.add_bookmark nm url tags = some (Except.error id) →
        ∃ b ∈ mgr.data, b.id = id ∧ (b.url = url ∨ b.url = slashToggle url)) ∧
    ((∀ b ∈ mgr.data, b.url ≠ url ∧ b.url ≠ slashToggle url) →
        mgr.add_bookmark nm url tags = some (Except.ok
          { mgr with
            data := (mgr.data ++ [{ id := find_lowest_free_value mgr.used_ids, name := nm,
                                    url := url, tags := tags, archived := false }])
            used_ids := (find_lowest_free_value mgr.used_ids :: mgr.used_ids)
            modified := true }) ∧
        find_lowest_free_value mgr.used_ids ∉ mgr.used_ids ∧
        (∀ k < find_lowest_free_value mgr.used_ids, k ∈ mgr.used_ids)) := by
  have hurl := already_has_url_ascii mgr url hne hascii
  refine ⟨?_, ?_, ?_⟩
  · constructor
    · rintro ⟨id, hid⟩
      unfold BookmarkManager.add_bookmark at hid
      rw [hurl] at hid
      cases hv : check_repeated mgr.data url with
      | some j =>
        obtain ⟨b, hb, hbid, hburl⟩ := check_repeated_eq_some mgr.data url j hv
        exact ⟨b, hb, Or.inl hburl⟩
      | none =>
        rw [hv] at hid
        cases ht : check_repeated mgr.data (slashToggle url) with
        | some j =>
          obtain ⟨b, hb, hbid, hburl⟩ := check_repeated_eq_some mgr.data (slashToggle url) j ht
          exact ⟨b, hb, Or.inr hburl⟩
        | none => rw [ht] at hid; simp at hid
    · rintro ⟨b, hb, hburl⟩
      unfold BookmarkManager.add_bookmark
      rw [hurl]
      cases hv : check_repeated mgr.data url with
      | some j => exact ⟨j, rfl⟩
      | none =>
        cases ht : check_repeated mgr.data (slashToggle url) with
        | some j => exact ⟨j, rfl⟩
        | none =>
          exfalso
          rcases hburl with hburl | hburl
          · exact (check_repeated_eq_none_iff mgr.data url).1 hv b hb hburl
          · exact (check_repeated_eq_none_iff mgr.data (slashToggle url)).1 ht b hb hburl
  · intro id hid
    unfold BookmarkManager.add_bookmark at hid
    rw [hurl] at hid
    cases hv : check_repeated mgr.data url with
    | some j =>
      rw [hv] at hid
      simp at hid
      obtain ⟨b, hb, hbid, hburl⟩ := check_repeated_eq_some mgr.data url j hv
      exact ⟨b, hb, by rw [hbid, hid], Or.inl hburl⟩
    | none =>
      rw [hv] at hid
      cases ht : check_repeated mgr.data (slashToggle url) with
      | some j =>
        rw [ht] at hid
        simp at hid
        obtain ⟨b, hb, hbid, hburl⟩ := check_repeated_eq_some mgr.data (slashToggle url) j ht
        exact ⟨b, hb, by rw [hbid, hid], Or.inr hburl⟩
      | none => rw [ht] at hid; simp at hid
  · intro hnone
    have hv : check_repeated mgr.data url = none :=
      (check_repeated_eq_none_iff mgr.data url).2 (fun b hb => (hnone b hb).1)
    have ht : check_repeated mgr.data (slashToggle url) = none :=
      (check_repeated_eq_none_iff mgr.data (slashToggle url)).2 (fun b hb => (hnone b hb).2)
    refine ⟨?_, (find_lowest_free_value_spec mgr.used_ids).1,
      (find_lowest_free_value_spec mgr.used_ids).2⟩
    unfold BookmarkManager.add_bookmark
    rw [hurl, hv, ht]

/-- C4 counterexample: no stored bookmark has the empty url, so by the
claim `add_bookmark` should append a bookmark — instead the call panics
(the trailing-slash toggle reads the last character of the empty url). -/
theorem c4_empty_url_panics :
    (∀ b ∈ c4mgr.data, b.url ≠ ([] : List Char)) ∧
    c4mgr.add_bookmark "X" [] [] = none := by
  refine ⟨?_, rfl⟩
  intro b hb
  simp [c4mgr] at hb
  subst hb
  simp

/-- C4 witness: the amended theorem applied to a store holding url
`"h/"` with the new url `"h"` — the trailing-slash-toggled form matches,
so the call is rejected. -/
theorem c4_add_bookmark_ascii_contract_witness :
    (['h'] : List Char) ≠ [] ∧ (∀ c ∈ (['h'] : List Char), c.utf8Size = 1) ∧
    (∃ b ∈ c4mgr.data, b.url = ['h'] ∨ b.url = slashToggle ['h']) ∧
    (∃ id, c4mgr.add_bookmark "X" ['h'] [] = some (Except.error id)) := by
  have hmem : ∃ b ∈ c4mgr.data, b.url = (['h'] : List Char) ∨ b.url = slashToggle ['h'] := by
    refine ⟨{ id := 3, name := "E", url := ['h', '/'], tags := [], archived := false },
      by simp [c4mgr], Or.inr ?_⟩
    simp [slashToggle]
  have h := (c4_add_bookmark_ascii_contract c4mgr "X" ['h'] [] (by simp) (by decide)).1.2 hmem
  exact ⟨by simp, by decide, hmem, h⟩

/-- C5: for a selection of exactly one identifier, `mass_modify` reaches
no confirmation prompt and performs no modification whatsoever — the
returned manager (items, both used-ID sets, dirty flag) is the input
manager, for every requested combination of changes and either prompt
answer. -/
theorem c5_single_selection_is_noop (mgr : ItemManager) (id : Nat) (m : ItemBatchMod)
    (confirmed : Bool) :
    mgr.mass_modify [id] m confirmed = (mgr, false) := by
  simp [ItemManager.mass_modify]

/-- C6 (amended): `save_if_modified` never changes the store, so two
consecutive calls with no intervening mutation perform zero writes when
the dirty flag is unset — and *two* writes, not one, when it is set (the
flag is never cleared by saving). This holds for both managers. -/
theorem c6_save_twice_write_count (b : BookmarkManager) (m : ItemManager) :
    b.saveTwiceWrites = (if b.modified then 2 else 0) ∧
    m.saveTwiceWrites = (if m.modified then 2 else 0) := by
  cases hb : b.modified <;> cases hm : m.modified <;>
    simp [BookmarkManager.saveTwiceWrites, ItemManager.saveTwiceWrites,
      BookmarkManager.save_if_modified, ItemManager.save_if_modified, writeCount, hb, hm]

/-- C6 counterexample: on a concrete dirty store the first call writes,
and the two calls together perform 2 writes, not the claimed exactly
one — the second call is not a no-op. -/
theorem c6_dirty_store_writes_twice :
    c6dirty.modified = true ∧ c6dirty.save_if_modified.isSome = true ∧
    c6dirty.saveTwiceWrites = 2 ∧ c6dirty.saveTwiceWrites ≠ 1 := by
  exact ⟨rfl, rfl, rfl, by decide⟩

/-- C7: `add_child_to_ref_id` sets the dirty flag unconditionally — after
every call, found or not, the returned manager is marked modified. -/
theorem c7_add_child_sets_dirty_unconditionally (mgr : ItemManager) (rid : Nat) (nm : String)
    (ctx : Option String) (st : State) (ch : List Item) :
    ((mgr.add_child_to_ref_id rid nm ctx st ch).1).modified = true := by
  simp only [ItemManager.add_child_to_ref_id]
  split <;> rfl

/-- C8 (amended): a confirmed `mass_modify` over more than one identifier
applies `applyMod` to each selected item found by reference ID via
`interact_mut`; per item, an unset `note` leaves the state unchanged and
`note = some false` turns `Note` into `Todo` leaving `Todo`/`Done`
unchanged, but `note = some true` sets the state of *every* found item to
`Note` — including a `Done` item that still carries a reference ID, which
the claim said would not be moved. -/
theorem c8_mass_modify_note_semantics (mgr : ItemManager) (ids : List Nat)
    (m : ItemBatchMod) (i : Item) (hlen : 1 < ids.length) :
    (mgr.mass_modify ids m true).1 =
      ids.foldl (fun mg id => mg.interact_mut id (applyMod m)) mgr ∧
    (m.note = none → (applyMod m i).state = i.state) ∧
    (m.note = some false →
      (applyMod m i).state = (match i.state with
        | State.Note => State.Todo
        | State.Todo => State.Todo
        | State.Done => State.Done)) ∧
    (m.note = some true → (applyMod m i).state = State.Note) := by
  refine ⟨by simp [ItemManager.mass_modify, hlen], ?_, ?_, ?_⟩ <;>
    rcases i with ⟨iid, rid, nm, ctx, st, ch⟩ <;>
    rcases m with ⟨mn, mc, mnote⟩ <;>
    intro hnote <;>
    subst hnote <;>
    cases st <;>
    rcases mn with _ | n <;>
    rcases mc with _ | c <;>
    simp [applyMod, Item.state, Item.withState, Item.withName, Item.withContext] <;>
    by_cases hc : c = "" <;>
    simp [hc, Item.withContext, Item.state, Item.withState]

/-- C8 counterexample: `c8mgr` is exactly what construction yields from
its data (a `Done` item retaining reference ID 5); a confirmed
`mass_modify` over the two-element selection `[5, 1]` with
`note = some true` moves the `Done` item to `Note`, contradicting the
claim that a `Done` item is not moved. -/
theorem c8_done_item_moved_to_note :
    ItemManager.new c8mgr.data = Except.ok c8mgr ∧
    c8mgr.data.map Item.state = [State.Done, State.Todo] ∧
    (((c8mgr.mass_modify [5, 1] { name := none, context := none, note := some true }
        true).1).data.map Item.state = [State.Note, State.Note]) := by
  refine ⟨rfl, rfl, ?_⟩
  simp [c8mgr, ItemManager.mass_modify, ItemManager.interact_mut, modifyRef, applyMod,
    Item.state, Item.withState, Item.ref_id, Item.children]

/-- C8 witness: the amended theorem applied to `c8mgr`, the selection
`[5, 1]` and the `Done` item carrying reference ID 5. -/
theorem c8_mass_modify_note_semantics_witness :
    1 < ([5, 1] : List Nat).length ∧
    (c8mgr.mass_modify [5, 1] { name := none, context := none, note := some true } true).1 =
      ([5, 1] : List Nat).foldl
        (fun mg id => mg.interact_mut id
          (applyMod { name := none, context := none, note := some true })) c8mgr ∧
    (applyMod { name := none, context := none, note := some true }
        (Item.mk 0 (some 5) "d" none State.Done [])).state = State.Note := by
  have h := c8_mass_modify_note_semantics c8mgr [5, 1]
    { name := none, context := none, note := some true }
    (Item.mk 0 (some 5) "d" none State.Done []) (by decide)
  exact ⟨by decide, h.1, h.2.2.2 rfl⟩

/-- C9 (amended): for a store with no verbatim match, `already_has_url`
— and `add_bookmark`, which calls it first — returns normally exactly
when the url is non-empty *and every character is single-byte*; the
empty url panics as claimed, but so does any non-empty url containing a
multi-byte character, because `url.len()` counts bytes while
`chars().nth` counts characters. -/
theorem c9_already_has_url_totality (mgr : BookmarkManager) (url : List Char)
    (nm : String) (tags : List String)
    (h : check_repeated mgr.data url = none) :
    ((mgr.already_has_url url).isSome = true ↔
      (url ≠ [] ∧ ∀ c ∈ url, c.utf8Size = 1)) ∧
    ((mgr.add_bookmark nm url tags).isSome = true ↔
      (url ≠ [] ∧ ∀ c ∈ url, c.utf8Size = 1)) := by
  have key : (mgr.already_has_url url).isSome = true ↔
      (url ≠ [] ∧ ∀ c ∈ url, c.utf8Size = 1) := by
    rw [← get_byteLen_isSome_iff url]
    unfold BookmarkManager.already_has_url
    rw [h]
    cases hg : url.get? (byteLen url - 1) with
    | none => simp
    | some c => by_cases hc : c = '/' <;> simp [hc]
  exact ⟨key, by rw [add_bookmark_isSome_eq]; exact key⟩

/-- C9 counterexample: the one-character url `"é"` is non-empty, no
record matches it verbatim, yet both `already_has_url` and
`add_bookmark` panic on it — contradicting the claim that every
non-empty url returns normally. -/
theorem c9_multibyte_url_panics :
    (['é'] : List Char) ≠ [] ∧
    c9mgr.already_has_url ['é'] = none ∧
    c9mgr.add_bookmark "X" ['é'] [] = none := by
  exact ⟨by simp, rfl, rfl⟩

/-- C9 witness: the amended theorem applied to the empty store and the
ASCII url `"a"`; the empty url is also checked not to return. -/
theorem c9_already_has_url_totality_witness :
    check_repeated c9mgr.data ['a'] = none ∧
    ((c9mgr.already_has_url ['a']).isSome = true ↔
      ((['a'] : List Char) ≠ [] ∧ ∀ c ∈ (['a'] : List Char), c.utf8Size = 1)) ∧
    (c9mgr.already_has_url []).isSome = false := by
  have h : check_repeated c9mgr.data ['a'] = none := rfl
  refine ⟨h, (c9_already_has_url_totality c9mgr ['a'] "X" [] h).1, rfl⟩

/-- C10: every successful construction leaves the dirty flag unset, so an
immediately following `save_if_modified` performs no write — even when
the back-fill step assigned fresh reference IDs (mutating the loaded
data), those IDs are never persisted. -/
theorem c10_construction_never_dirty (data : List Item) (m : ItemManager)
    (h : ItemManager.new data = Except.ok m) :
    m.modified = false ∧ m.save_if_modified = none := by
  have hmod : m.modified = false := by
    unfold ItemManager.new at h
    cases hs : scanIds data [] [] with
    | error e => rw [hs] at h; cases h
    | ok p =>
      obtain ⟨refs, ins⟩ := p
      rw [hs] at h
      cases h
      rfl
  exact ⟨hmod, by simp [ItemManager.save_if_modified, hmod]⟩

/-- C10 witness: construction from `c10input` back-fills a reference ID
(so the data differs from the input), yet the flag is unset and nothing
is written. -/
theorem c10_construction_never_dirty_witness :
    ItemManager.new c10input = Except.ok c10result ∧
    c10result.data ≠ c10input ∧
    c10result.modified = false ∧ c10result.save_if_modified = none := by
  have h : ItemManager.new c10input = Except.ok c10result := rfl
  refine ⟨h, ?_, (c10_construction_never_dirty c10input c10result h).1,
    (c10_construction_never_dirty c10input c10result h).2⟩
  simp [c10input, c10result]
